import Mathlib

/-!
Verification of internal/cmd/convertshaders/main.go (shader conversion
pipeline).  The Go code is shallowly embedded: the pure data flow of
generate / parseReflection / parseDataType is translated into Lean
functions; the external subprocesses (glslcc, fxc) and the template
engine are oracles carried in an environment record; fallible steps
return Except, mirroring Go's error returns.  Go ints are modeled as
Int: all integer values here come from decoded JSON reflection
documents (json.Unmarshal rejects numbers outside the int64 range) and
the only arithmetic is the running sum of block sizes, far below the
64-bit range for any real reflection document, so wraparound is not
modeled.
-/

namespace ConvertShaders

/-! ### Data model

Record types of package gioui.org/gpu/backend, with exactly the fields
main.go reads and writes (InputLocation, UniformBlock, UniformLocation,
TextureBinding, UniformsReflection, ShaderSources, DataType).  The Go
field named Type is called Ty here (Type is a Lean keyword); HLSL is a
byte slice in Go, modeled as Option (List Nat) with none for the nil
slice left when fxc is unavailable. -/

inductive DataType where
  | float
  | int
  deriving DecidableEq

structure InputLocation where
  Name : String
  Location : Int
  Semantic : String
  SemanticIndex : Int
  Ty : DataType
  Size : Int
  deriving DecidableEq

structure UniformBlock where
  Name : String
  Binding : Int
  deriving DecidableEq

structure UniformLocation where
  Name : String
  Ty : DataType
  Size : Int
  Offset : Int
  deriving DecidableEq

structure TextureBinding where
  Name : String
  Binding : Int
  deriving DecidableEq

structure UniformsReflection where
  Blocks : List UniformBlock
  Locations : List UniformLocation
  Size : Int
  deriving DecidableEq

structure ShaderSources where
  Inputs : List InputLocation
  Uniforms : UniformsReflection
  Textures : List TextureBinding
  GLSL100ES : String
  GLSL300ES : String
  HLSL : Option (List Nat)
  deriving DecidableEq

/-- The Go zero value of backend.ShaderSources, as allocated by
`var variants [nvariants]struct{ backend.ShaderSources; hlslSrc string }`
at the top of generate's shader loop. -/
def emptyShaderSources : ShaderSources :=
  { Inputs := [], Uniforms := { Blocks := [], Locations := [], Size := 0 },
    Textures := [], GLSL100ES := "", GLSL300ES := "", HLSL := none }

/-! ### Reflection document

The JSON shapes declared locally inside parseReflection
(InputReflection, UniformMemberReflection, UniformBufferReflection,
TextureReflection, shaderReflection, shaderMetadata).  A value of
shaderMetadata is a well-formed, already-decoded reflection document;
json.Unmarshal failure on raw bytes is modeled at the call sites
(parseReflectionRaw below). -/

structure InputReflection where
  ID : Int
  Name : String
  Location : Int
  Semantic : String
  SemanticIndex : Int
  Ty : String
  deriving DecidableEq

structure UniformMemberReflection where
  Name : String
  Ty : String
  Offset : Int
  Size : Int
  deriving DecidableEq

structure UniformBufferReflection where
  ID : Int
  Name : String
  Set : Int
  Binding : Int
  Size : Int
  Members : List UniformMemberReflection
  deriving DecidableEq, Inhabited

structure TextureReflection where
  ID : Int
  Name : String
  Set : Int
  Binding : Int
  Dimension : String
  Format : String
  deriving DecidableEq

structure shaderReflection where
  Inputs : List InputReflection
  UniformBuffers : List UniformBufferReflection
  Textures : List TextureReflection
  deriving DecidableEq

structure shaderMetadata where
  VS : shaderReflection
  FS : shaderReflection
  deriving DecidableEq

/-! ### parseDataType (main.go lines 269-290) -/

/-- Go's switch on the type token, modeled as the equivalent
if-then-else chain; the default case is
fmt.Errorf("unsupported input data type: %s", t). -/
def parseDataType (t : String) : Except String (DataType × Int) :=
  if t = "float" then Except.ok (DataType.float, 1)
  else if t = "float2" then Except.ok (DataType.float, 2)
  else if t = "float3" then Except.ok (DataType.float, 3)
  else if t = "float4" then Except.ok (DataType.float, 4)
  else if t = "int" then Except.ok (DataType.int, 1)
  else if t = "int2" then Except.ok (DataType.int, 2)
  else if t = "int3" then Except.ok (DataType.int, 3)
  else if t = "int4" then Except.ok (DataType.int, 4)
  else Except.error ("unsupported input data type: " ++ t)

/-! ### parseReflection (main.go lines 168-267)

Go mutates *info in place; here each phase threads the accumulated
lists explicitly and the function returns the updated record.  Each
loop of the Go function becomes a recursive helper that appends to the
accumulator exactly as the Go loop appends to the info fields. -/

/-- The input loop (lines 213-226): each vertex-stage input is
type-mapped and appended to info.Inputs; a parseDataType failure is
wrapped as fmt.Errorf("parseReflection: %v", err) and returned. -/
def parseInputs : List InputReflection → List InputLocation →
    Except String (List InputLocation)
  | [], acc => Except.ok acc
  | input :: rest, acc =>
    match parseDataType input.Ty with
    | Except.error e => Except.error ("parseReflection: " ++ e)
    | Except.ok (dataType, dataSize) =>
      parseInputs rest (acc ++
        [{ Name := input.Name, Location := input.Location,
           Semantic := input.Semantic, SemanticIndex := input.SemanticIndex,
           Ty := dataType, Size := dataSize }])

/-- The comparison sort.Slice applies (lines 227-229): ascending by
Location. -/
def inputLE (a b : InputLocation) : Prop := a.Location ≤ b.Location

instance : DecidableRel inputLE :=
  fun a b => inferInstanceAs (Decidable (a.Location ≤ b.Location))

instance : IsTotal InputLocation inputLE :=
  ⟨fun a b => Int.le_total a.Location b.Location⟩

instance : IsTrans InputLocation inputLE :=
  ⟨fun _ _ _ hab hbc => le_trans hab hbc⟩

/-- sort.Slice(info.Inputs, less on Location).  Go's sort.Slice is an
unstable but deterministic comparison sort; any sort agreeing with the
Location order is an admissible model (the order of inputs that share
a Location is unspecified in Go), so the sort is modeled by insertion
sort on the reflexive closure of the comparison. -/
def sortInputs (l : List InputLocation) : List InputLocation :=
  List.insertionSort inputLE l

/-- The member loop for one uniform block (lines 240-252): each member
is type-mapped and appended with the synthetic name _<blockID>.<name>
and offset blockOffset + member.Offset. -/
def parseMembers (blockID : Int) (blockOffset : Int) :
    List UniformMemberReflection → List UniformLocation →
    Except String (List UniformLocation)
  | [], acc => Except.ok acc
  | member :: rest, acc =>
    match parseDataType member.Ty with
    | Except.error e => Except.error ("parseReflection: " ++ e)
    | Except.ok (dataType, size) =>
      parseMembers blockID blockOffset rest (acc ++
        [{ Name := "_" ++ toString blockID ++ "." ++ member.Name,
           Ty := dataType, Size := size,
           Offset := blockOffset + member.Offset }])

/-- The block loop (lines 234-254): per block, append a UniformBlock,
process its members at the current blockOffset, then advance
blockOffset by the block's declared size.  Returns the final
blockOffset (assigned to info.Uniforms.Size on line 255) and the
accumulated block and location lists. -/
def parseBlocks :
    List UniformBufferReflection → Int → List UniformBlock →
    List UniformLocation →
    Except String (Int × List UniformBlock × List UniformLocation)
  | [], blockOffset, accBlocks, accLocs =>
    Except.ok (blockOffset, accBlocks, accLocs)
  | block :: rest, blockOffset, accBlocks, accLocs =>
    match parseMembers block.ID blockOffset block.Members accLocs with
    | Except.error e => Except.error e
    | Except.ok accLocs2 =>
      parseBlocks rest (blockOffset + block.Size)
        (accBlocks ++ [{ Name := block.Name, Binding := block.Binding }])
        accLocs2

/-- The vertex-then-fragment fallback (lines 230-233 for uniform
buffers, 256-258 for textures): use the vertex stage's list unless it
is empty, in which case use the fragment stage's. -/
def selectStage {α : Type} (vs fs : List α) : List α :=
  if vs.isEmpty then fs else vs

/-- The texture loop (lines 260-265): appends one TextureBinding per
reflected texture. -/
def parseTextures (ts : List TextureReflection) (acc : List TextureBinding) :
    List TextureBinding :=
  acc ++ ts.map (fun texture =>
    { Name := texture.Name, Binding := texture.Binding })

/-- parseReflection on an already-decoded document: inputs are parsed
and the whole Inputs field (pre-existing entries included) is sorted;
uniform blocks are chosen by the stage fallback and flattened starting
from blockOffset 0; Uniforms.Size is overwritten with the final
blockOffset; textures are chosen by the stage fallback and appended. -/
def parseReflection (reflect : shaderMetadata) (info : ShaderSources) :
    Except String ShaderSources :=
  match parseInputs reflect.VS.Inputs info.Inputs with
  | Except.error e => Except.error e
  | Except.ok inputs0 =>
    let shaderBlocks :=
      selectStage reflect.VS.UniformBuffers reflect.FS.UniformBuffers
    match parseBlocks shaderBlocks 0 info.Uniforms.Blocks
        info.Uniforms.Locations with
    | Except.error e => Except.error e
    | Except.ok (blockOffset, blocks, locs) =>
      let textures := selectStage reflect.VS.Textures reflect.FS.Textures
      Except.ok { info with
        Inputs := sortInputs inputs0,
        Uniforms :=
          { Blocks := blocks, Locations := locs, Size := blockOffset },
        Textures := parseTextures textures info.Textures }

/-- parseReflection on raw bytes (the jsonData argument): a value
Except.ok doc stands for bytes that json.Unmarshal decodes to doc, and
Except.error e for malformed bytes with decode error e, which
parseReflection wraps as fmt.Errorf("parseReflection: %v", err)
(lines 209-211). -/
def parseReflectionRaw (jsonData : Except String shaderMetadata)
    (info : ShaderSources) : Except String ShaderSources :=
  match jsonData with
  | Except.error e => Except.error ("parseReflection: " ++ e)
  | Except.ok reflect => parseReflection reflect info

/-! ### The generate pipeline (main.go lines 41-166)

External effects are oracles in an environment record:
  - template: text/template ParseFiles + Execute on the shader file
    with the variant's shaderArgs (convertShader lines 313-325);
  - glslcc: running the glslcc subprocess and reading back the backend
    source and the raw reflection sidecar (lines 338-369), as a
    function of the templated source, target lang, profile, and stage
    flag; its reflection component uses the parseReflectionRaw
    encoding of raw bytes;
  - compile: compileHLSL's fxc subprocess (lines 292-310), returning
    the bytecode bytes;
  - glslccFound / fxcFound: the results of the two exec.LookPath calls
    (lines 47-52);
  - shaders: the sorted list filepath.Glob("shaders/*") returns.
Temp-directory plumbing, the output buffer, go/format and the final
ioutil.WriteFile are not modeled as data: an Except.ok result of
generate is the record content of the written artifact, and any
Except.error result means generate returned before reaching the
WriteFile call on line 165, so no artifact is written. -/

structure shaderArgs where
  FetchColorExpr : String
  Header : String
  deriving DecidableEq

/-- args[0] of generate (lines 71-74): the uniform-color variant. -/
def colorVariantArgs : shaderArgs :=
  { FetchColorExpr := "_color",
    Header := "layout(binding=0) uniform Color \x7b vec4 _color; \x7d;" }

/-- args[1] of generate (lines 75-78): the textured variant. -/
def textureVariantArgs : shaderArgs :=
  { FetchColorExpr := "texture(tex, vUV)",
    Header := "layout(binding=0) uniform sampler2D tex;" }

structure Env where
  glslccFound : Bool
  fxcFound : Bool
  shaders : List String
  template : String → shaderArgs → Except String String
  glslcc : String → String → String → String →
    Except String (String × Except String shaderMetadata)
  compile : String → String → String → Except String (List Nat)

/-- filepath.Ext: the suffix of the last path element starting at its
final dot, or "" if that element has no dot.  Implemented like Go's
scan from the end of the path, stopping at a path separator. -/
def extScan : List Char → List Char → Option (List Char)
  | [], _ => none
  | c :: rest, acc =>
    if c = '/' then none
    else if c = '.' then some (c :: acc)
    else extScan rest (c :: acc)

def fileExt (path : String) : String :=
  match extScan path.data.reverse [] with
  | some cs => String.mk cs
  | none => ""

/-- convertShader (lines 312-370): run the template oracle, pick the
glslcc stage flag from the file extension (any other extension is the
fatal "unrecognized shader type: %s" error, line 336), then run the
glslcc oracle.  A subprocess failure is wrapped with the shader path
(line 353). -/
def convertShader (env : Env) (path lang profile : String)
    (args : shaderArgs) :
    Except String (String × Except String shaderMetadata) :=
  match env.template path args with
  | Except.error e => Except.error e
  | Except.ok templated =>
    let ext := fileExt path
    if ext = ".vert" ∨ ext = ".frag" then
      match env.glslcc templated lang profile
          (if ext = ".vert" then "--vert" else "--frag") with
      | Except.error e => Except.error (path ++ ": " ++ e)
      | Except.ok r => Except.ok r
    else Except.error ("unrecognized shader type: " ++ path)

/-- One slot of generate's variants array: the assembled ShaderSources
plus the HLSL source text kept for the emitted comment (lines 66-69). -/
structure variantOut where
  sources : ShaderSources
  hlslSrc : String
  deriving DecidableEq

/-- The body of generate's per-variant loop (lines 80-118): convert to
GLSL ES 100 and parse its reflection into a fresh ShaderSources,
prefix the "#version 100" directive, convert to GLSL ES 300 and HLSL
(their reflection is discarded), pick the fxc profile from the file
extension ("unrecognized shader type %s", line 105), and compile the
HLSL bytecode only when fxc was found, leaving the field nil (none)
otherwise. -/
def processVariant (env : Env) (shader : String) (args : shaderArgs) :
    Except String variantOut :=
  match convertShader env shader "gles" "100" args with
  | Except.error e => Except.error e
  | Except.ok (glsl100raw, reflectData) =>
    let glsl100 := "#version 100\n" ++ glsl100raw
    match parseReflectionRaw reflectData emptyShaderSources with
    | Except.error e => Except.error e
    | Except.ok sources =>
      match convertShader env shader "gles" "300" args with
      | Except.error e => Except.error e
      | Except.ok (glsl300, _) =>
        match convertShader env shader "hlsl" "40" args with
        | Except.error e => Except.error e
        | Except.ok (hlsl, _) =>
          let ext := fileExt shader
          if ext = ".frag" ∨ ext = ".vert" then
            match (if env.fxcFound then
                Except.map some (env.compile hlsl "main"
                  ((if ext = ".frag" then "ps" else "vs") ++ "_4_0"))
              else Except.ok none) with
            | Except.error e => Except.error e
            | Except.ok hlslc =>
              Except.ok
                { sources :=
                    { sources with
                      GLSL100ES := glsl100,
                      GLSL300ES := glsl300,
                      HLSL := hlslc },
                  hlslSrc := hlsl }
          else Except.error ("unrecognized shader type " ++ shader)

/-- One iteration of generate's shader loop (lines 64-158): compute
both variants, then emit either the first record alone (the emission
loop breaks after the first record when multiVariant is false,
lines 152-154) or both records in declared variant order. -/
def processShader (env : Env) (shader : String) :
    Except String (List variantOut) :=
  match processVariant env shader colorVariantArgs with
  | Except.error e => Except.error e
  | Except.ok v0 =>
    match processVariant env shader textureVariantArgs with
    | Except.error e => Except.error e
    | Except.ok v1 =>
      if v0.sources.GLSL100ES = v1.sources.GLSL100ES then
        Except.ok [v0]
      else Except.ok [v0, v1]

/-- generate's shader loop: the first failing shader's error aborts
the whole loop (every err is returned immediately). -/
def generateShaders (env : Env) : List String →
    Except String (List (List variantOut))
  | [] => Except.ok []
  | shader :: rest =>
    match processShader env shader with
    | Except.error e => Except.error e
    | Except.ok recs =>
      match generateShaders env rest with
      | Except.error e => Except.error e
      | Except.ok more => Except.ok (recs :: more)

/-- generate (lines 41-166): exec.LookPath("glslcc") failure aborts at
once (lines 47-50); otherwise every discovered shader is processed and
the emitted record lists are the artifact's content. -/
def generate (env : Env) : Except String (List (List variantOut)) :=
  if env.glslccFound then generateShaders env env.shaders
  else Except.error "exec: glslcc: executable file not found"

/-! ### Spec-side description of the flattened uniform layout

These two definitions transliterate the specification's wording ("for
two blocks of sizes S1 and S2 appearing in that order, block 2's
members' final offsets equal S1 + member.offset", generalized as the
spec does to "the running sum of preceding blocks' sizes plus the
member's intra-block offset"), to be compared with what parseBlocks
computes. -/

/-- S1 + ... + S(k-1): the sum of the sizes of the blocks preceding
block k (0-based) in source order. -/
def blockPrefixSize (bs : List UniformBufferReflection) (k : Nat) : Int :=
  ((bs.take k).map (fun b => b.Size)).sum

/-- The flattened offset sequence the spec describes: for each block k
in source order, each of its members in order at offset
(S1 + ... + S(k-1)) + member.offset. -/
def specFlattenedOffsets (bs : List UniformBufferReflection) : List Int :=
  (List.range bs.length).flatMap (fun k =>
    (bs.getD k default).Members.map (fun m => blockPrefixSize bs k + m.Offset))

/-! ### Concrete test inputs (used by the witnesses) -/

/-- A reflection document with two vertex-stage uniform blocks of
sizes 16 and 8, two vertex inputs listed out of location order, and a
texture declared only in the fragment stage. -/
def docW : shaderMetadata :=
  { VS :=
      { Inputs :=
          [{ ID := 1, Name := "pos", Location := 1, Semantic := "TEXCOORD",
             SemanticIndex := 1, Ty := "float2" },
           { ID := 2, Name := "uv", Location := 0, Semantic := "TEXCOORD",
             SemanticIndex := 0, Ty := "float2" }],
        UniformBuffers :=
          [{ ID := 22, Name := "Color", Set := 0, Binding := 0, Size := 16,
             Members := [{ Name := "color", Ty := "float4", Offset := 0,
                           Size := 16 }] },
           { ID := 23, Name := "Extra", Set := 0, Binding := 1, Size := 8,
             Members := [{ Name := "z", Ty := "float", Offset := 0,
                           Size := 4 }] }],
        Textures := [] },
    FS :=
      { Inputs := [], UniformBuffers := [],
        Textures := [{ ID := 3, Name := "tex", Set := 0, Binding := 0,
                       Dimension := "2d", Format := "float" }] } }

/-- docW with the fragment stage's textures copied into the vertex
stage, for the fallback witness. -/
def docWTex : shaderMetadata :=
  { docW with VS := { docW.VS with Textures := docW.FS.Textures } }

/-- The ShaderSources parseReflection produces from docW and a fresh
record. -/
def infoW : ShaderSources :=
  { Inputs :=
      [{ Name := "uv", Location := 0, Semantic := "TEXCOORD",
         SemanticIndex := 0, Ty := DataType.float, Size := 2 },
       { Name := "pos", Location := 1, Semantic := "TEXCOORD",
         SemanticIndex := 1, Ty := DataType.float, Size := 2 }],
    Uniforms :=
      { Blocks := [{ Name := "Color", Binding := 0 },
                   { Name := "Extra", Binding := 1 }],
        Locations :=
          [{ Name := "_22.color", Ty := DataType.float, Size := 4,
             Offset := 0 },
           { Name := "_23.z", Ty := DataType.float, Size := 1,
             Offset := 16 }],
        Size := 24 },
    Textures := [{ Name := "tex", Binding := 0 }],
    GLSL100ES := "", GLSL300ES := "", HLSL := none }

/-- A document whose single vertex input has the unsupported type
token "double". -/
def docBad : shaderMetadata :=
  { VS :=
      { Inputs :=
          [{ ID := 1, Name := "pos", Location := 0, Semantic := "TEXCOORD",
             SemanticIndex := 0, Ty := "double" }],
        UniformBuffers := [], Textures := [] },
    FS := { Inputs := [], UniformBuffers := [], Textures := [] } }

/-- A concrete environment whose oracles echo their arguments: the
template output depends on the variant header, so the two variants
produce different GLSL ES 100 text. -/
def envW : Env :=
  { glslccFound := true, fxcFound := true,
    shaders := ["shaders/blit.frag"],
    template := fun _ args => Except.ok ("src+" ++ args.Header),
    glslcc := fun templated lang profile _ =>
      Except.ok (lang ++ profile ++ ":" ++ templated, Except.ok docW),
    compile := fun _ _ _ => Except.ok [1, 2, 3] }

/-- envW with a template that ignores the variant arguments, so both
variants produce identical text. -/
def envE : Env :=
  { envW with template := fun _ _ => Except.ok "src" }

/-- envW with the fxc binary missing. -/
def envN : Env :=
  { envW with fxcFound := false }

/-- envW with a glslcc oracle whose reflection document contains the
unsupported type token "double". -/
def envBad : Env :=
  { envW with glslcc := fun templated lang profile _ =>
      Except.ok (lang ++ profile ++ ":" ++ templated, Except.ok docBad) }

/-- The single variant record both variants of envE produce. -/
def vE : variantOut :=
  { sources := { infoW with
      GLSL100ES := "#version 100\ngles100:src",
      GLSL300ES := "gles300:src",
      HLSL := some [1, 2, 3] },
    hlslSrc := "hlsl40:src" }

/-- The uniform-color variant record envW produces. -/
def v0W : variantOut :=
  { sources := { infoW with
      GLSL100ES :=
        "#version 100\ngles100:src+layout(binding=0) uniform Color \x7b vec4 _color; \x7d;",
      GLSL300ES :=
        "gles300:src+layout(binding=0) uniform Color \x7b vec4 _color; \x7d;",
      HLSL := some [1, 2, 3] },
    hlslSrc :=
      "hlsl40:src+layout(binding=0) uniform Color \x7b vec4 _color; \x7d;" }

/-- The textured variant record envW produces. -/
def v1W : variantOut :=
  { sources := { infoW with
      GLSL100ES :=
        "#version 100\ngles100:src+layout(binding=0) uniform sampler2D tex;",
      GLSL300ES :=
        "gles300:src+layout(binding=0) uniform sampler2D tex;",
      HLSL := some [1, 2, 3] },
    hlslSrc := "hlsl40:src+layout(binding=0) uniform sampler2D tex;" }

/-- v0W as produced when fxc is missing: bytecode absent. -/
def vN0W : variantOut :=
  { v0W with sources := { v0W.sources with HLSL := none } }

/-- v1W as produced when fxc is missing: bytecode absent. -/
def vN1W : variantOut :=
  { v1W with sources := { v1W.sources with HLSL := none } }

/-- A bytecode-compiler oracle that always fails, to exhibit that the
compiler is never consulted when fxc is missing. -/
def czero : String → String → String → Except String (List Nat) :=
  fun _ _ _ => Except.error "fxc: not invoked"

/-! ### Accumulator lemmas

Each parsing loop appends to the accumulator it is given, so a run
from any accumulator is the run from the empty accumulator with the
accumulator prepended. -/

theorem parseInputs_append (ins : List InputReflection)
    (a : List InputLocation) :
    ∀ b, parseInputs ins (a ++ b) =
      Except.map (fun l => a ++ l) (parseInputs ins b) := by
  induction ins with
  | nil => intro b; rfl
  | cons input rest ih =>
    intro b
    simp only [parseInputs]
    cases parseDataType input.Ty with
    | error e => rfl
    | ok p =>
      obtain ⟨dt, sz⟩ := p
      dsimp only
      rw [List.append_assoc]
      exact ih _

theorem parseInputs_acc (ins : List InputReflection)
    (acc : List InputLocation) :
    parseInputs ins acc =
      Except.map (fun l => acc ++ l) (parseInputs ins []) := by
  simpa using parseInputs_append ins acc []

theorem parseMembers_append (blockID off : Int)
    (ms : List UniformMemberReflection) (a : List UniformLocation) :
    ∀ b, parseMembers blockID off ms (a ++ b) =
      Except.map (fun l => a ++ l) (parseMembers blockID off ms b) := by
  induction ms with
  | nil => intro b; rfl
  | cons member rest ih =>
    intro b
    simp only [parseMembers]
    cases parseDataType member.Ty with
    | error e => rfl
    | ok p =>
      obtain ⟨dt, sz⟩ := p
      dsimp only
      rw [List.append_assoc]
      exact ih _

theorem parseMembers_acc (blockID off : Int)
    (ms : List UniformMemberReflection) (acc : List UniformLocation) :
    parseMembers blockID off ms acc =
      Except.map (fun l => acc ++ l) (parseMembers blockID off ms []) := by
  simpa using parseMembers_append blockID off ms acc []

theorem parseBlocks_append (bs : List UniformBufferReflection)
    (a1 : List UniformBlock) (a2 : List UniformLocation) :
    ∀ (off : Int) (b1 : List UniformBlock) (b2 : List UniformLocation),
      parseBlocks bs off (a1 ++ b1) (a2 ++ b2) =
        Except.map (fun r => (r.1, a1 ++ r.2.1, a2 ++ r.2.2))
          (parseBlocks bs off b1 b2) := by
  induction bs with
  | nil => intro off b1 b2; rfl
  | cons block rest ih =>
    intro off b1 b2
    simp only [parseBlocks,
      parseMembers_acc block.ID off block.Members (a2 ++ b2),
      parseMembers_acc block.ID off block.Members b2]
    cases parseMembers block.ID off block.Members [] with
    | error e => rfl
    | ok m =>
      simp only [Except.map]
      rw [List.append_assoc, List.append_assoc]
      exact ih _ _ _

theorem parseBlocks_acc (bs : List UniformBufferReflection) (off : Int)
    (accB : List UniformBlock) (accL : List UniformLocation) :
    parseBlocks bs off accB accL =
      Except.map (fun r => (r.1, accB ++ r.2.1, accL ++ r.2.2))
        (parseBlocks bs off [] []) := by
  simpa using parseBlocks_append bs accB accL off [] []

/-! ### Shape of successful runs from the empty accumulator -/

theorem parseMembers_ok_offsets (blockID : Int)
    (ms : List UniformMemberReflection) :
    ∀ (off : Int) (acc l : List UniformLocation),
      parseMembers blockID off ms acc = Except.ok l →
      l.map (fun u => u.Offset) =
        acc.map (fun u => u.Offset) ++ ms.map (fun m => off + m.Offset) := by
  induction ms with
  | nil =>
    intro off acc l h
    injection h with h2
    subst h2
    simp
  | cons member rest ih =>
    intro off acc l h
    simp only [parseMembers] at h
    cases hdt : parseDataType member.Ty with
    | error e => rw [hdt] at h; cases h
    | ok p =>
      obtain ⟨dt, sz⟩ := p
      rw [hdt] at h
      have := ih off _ l h
      simpa [List.append_assoc] using this

/-- What the spec's flattened layout demands of a block list, one
cons step at a time. -/
theorem specFlattenedOffsets_cons (block : UniformBufferReflection)
    (rest : List UniformBufferReflection) :
    specFlattenedOffsets (block :: rest) =
      block.Members.map (fun m => m.Offset) ++
      (specFlattenedOffsets rest).map (fun x => block.Size + x) := by
  unfold specFlattenedOffsets
  rw [List.length_cons, List.range_succ_eq_map, List.flatMap_cons,
    List.flatMap_map, List.map_flatMap]
  congr 1
  · simp [blockPrefixSize]
  · congr 1
    funext k
    simp [blockPrefixSize, List.take_succ_cons, List.map_map,
      Function.comp, add_assoc]

theorem parseBlocks_ok_spec (bs : List UniformBufferReflection) :
    ∀ (off o : Int) (B : List UniformBlock) (L : List UniformLocation),
      parseBlocks bs off [] [] = Except.ok (o, B, L) →
      o = off + (bs.map (fun b => b.Size)).sum ∧
      L.map (fun u => u.Offset) =
        (specFlattenedOffsets bs).map (fun x => off + x) := by
  induction bs with
  | nil =>
    intro off o B L h
    simp only [parseBlocks, Except.ok.injEq, Prod.mk.injEq] at h
    obtain ⟨h1, h2, h3⟩ := h
    subst h1; subst h2; subst h3
    simp [specFlattenedOffsets]
  | cons block rest ih =>
    intro off o B L h
    simp only [parseBlocks] at h
    cases hm : parseMembers block.ID off block.Members [] with
    | error e => rw [hm] at h; cases h
    | ok m =>
      rw [hm] at h
      simp only [List.nil_append] at h
      rw [parseBlocks_acc rest (off + block.Size)
        [{ Name := block.Name, Binding := block.Binding }] m] at h
      cases hres : parseBlocks rest (off + block.Size) [] [] with
      | error e => rw [hres] at h; cases h
      | ok r =>
        obtain ⟨o', B', L'⟩ := r
        rw [hres] at h
        simp only [Except.map, Except.ok.injEq, Prod.mk.injEq] at h
        obtain ⟨ho, hB, hL⟩ := h
        subst ho; subst hB; subst hL
        obtain ⟨hsz, hoff⟩ := ih (off + block.Size) o' B' L' hres
        have hmo := parseMembers_ok_offsets block.ID block.Members off [] m hm
        constructor
        · rw [hsz]; simp [add_assoc]
        · rw [specFlattenedOffsets_cons]
          simp only [List.map_append, List.map_map]
          rw [hmo, hoff]
          simp [Function.comp, add_assoc]

/-! ### Inverting a successful parseReflection run -/

theorem parseReflection_ok_inv (doc : shaderMetadata) (r i : ShaderSources)
    (h : parseReflection doc r = Except.ok i) :
    ∃ ins0 off B L,
      parseInputs doc.VS.Inputs r.Inputs = Except.ok ins0 ∧
      parseBlocks (selectStage doc.VS.UniformBuffers doc.FS.UniformBuffers)
        0 r.Uniforms.Blocks r.Uniforms.Locations = Except.ok (off, B, L) ∧
      i = { r with
            Inputs := sortInputs ins0,
            Uniforms := { Blocks := B, Locations := L, Size := off },
            Textures := parseTextures
              (selectStage doc.VS.Textures doc.FS.Textures) r.Textures } := by
  simp only [parseReflection] at h
  cases hpi : parseInputs doc.VS.Inputs r.Inputs with
  | error e => rw [hpi] at h; cases h
  | ok ins0 =>
    rw [hpi] at h
    cases hpb : parseBlocks
        (selectStage doc.VS.UniformBuffers doc.FS.UniformBuffers) 0
        r.Uniforms.Blocks r.Uniforms.Locations with
    | error e => rw [hpb] at h; cases h
    | ok t =>
      obtain ⟨off, B, L⟩ := t
      rw [hpb] at h
      exact ⟨ins0, off, B, L, rfl, rfl, (Except.ok.inj h).symm⟩

/-- The core of the append-not-reset behavior: a successful run on any
starting record determines a successful run on the fresh record, and
the final lists are the starting record's lists followed by the fresh
run's lists (the sorted Inputs only up to permutation), with
Uniforms.Size taken from the fresh run alone. -/
theorem parseReflection_shift (doc : shaderMetadata) (r i : ShaderSources)
    (h : parseReflection doc r = Except.ok i) :
    ∃ i0, parseReflection doc emptyShaderSources = Except.ok i0 ∧
      i.Uniforms.Blocks = r.Uniforms.Blocks ++ i0.Uniforms.Blocks ∧
      i.Uniforms.Locations = r.Uniforms.Locations ++ i0.Uniforms.Locations ∧
      i.Textures = r.Textures ++ i0.Textures ∧
      i.Uniforms.Size = i0.Uniforms.Size ∧
      i.Inputs.Perm (r.Inputs ++ i0.Inputs) ∧
      List.Sorted inputLE i.Inputs := by
  obtain ⟨ins0, off, B, L, hpi, hpb, hi⟩ := parseReflection_ok_inv doc r i h
  rw [parseInputs_acc] at hpi
  cases hpi0 : parseInputs doc.VS.Inputs [] with
  | error e => rw [hpi0] at hpi; cases hpi
  | ok new =>
    rw [hpi0] at hpi
    replace hpi : r.Inputs ++ new = ins0 := Except.ok.inj hpi
    rw [parseBlocks_acc] at hpb
    cases hpb0 : parseBlocks
        (selectStage doc.VS.UniformBuffers doc.FS.UniformBuffers) 0 [] [] with
    | error e => rw [hpb0] at hpb; cases hpb
    | ok t0 =>
      obtain ⟨off0, B0, L0⟩ := t0
      rw [hpb0] at hpb
      simp only [Except.map, Except.ok.injEq, Prod.mk.injEq] at hpb
      obtain ⟨hoff, hBB, hLL⟩ := hpb
      refine ⟨{ emptyShaderSources with
                Inputs := sortInputs new,
                Uniforms := { Blocks := B0, Locations := L0, Size := off0 },
                Textures := parseTextures
                  (selectStage doc.VS.Textures doc.FS.Textures) [] }, ?_, ?_⟩
      · simp only [parseReflection, emptyShaderSources, hpi0, hpb0]
      · subst hi
        refine ⟨by simp [hBB], by simp [hLL], ?_, by simp [hoff], ?_, ?_⟩
        · simp [parseTextures]
        · have h1 : (sortInputs ins0).Perm ins0 :=
            List.perm_insertionSort inputLE ins0
          have h2 : (sortInputs new).Perm new :=
            List.perm_insertionSort inputLE new
          simp only []
          refine (h1.trans ?_)
          rw [← hpi]
          exact (List.Perm.append_left r.Inputs h2.symm)
        · exact List.sorted_insertionSort inputLE ins0

/-- A list sorted by the location comparison whose locations are
pairwise distinct has strictly increasing locations. -/
theorem sorted_le_nodup_strict (l : List InputLocation)
    (hs : List.Sorted inputLE l)
    (hn : (l.map (fun i => i.Location)).Nodup) :
    List.Sorted (fun a b : Int => a < b) (l.map (fun i => i.Location)) := by
  rw [List.Sorted, List.pairwise_map]
  rw [List.Nodup, List.pairwise_map] at hn
  exact (hs.and hn).imp (fun h => lt_of_le_of_ne h.1 h.2)

/-- parseInputs records the reflected locations in document order. -/
theorem parseInputs_ok_locations (ins : List InputReflection) :
    ∀ (acc : List InputLocation) (l : List InputLocation),
      parseInputs ins acc = Except.ok l →
      l.map (fun i => i.Location) =
        acc.map (fun i => i.Location) ++ ins.map (fun i => i.Location) := by
  induction ins with
  | nil =>
    intro acc l h
    injection h with h2
    subst h2
    simp
  | cons input rest ih =>
    intro acc l h
    simp only [parseInputs] at h
    cases hdt : parseDataType input.Ty with
    | error e => rw [hdt] at h; cases h
    | ok p =>
      obtain ⟨dt, sz⟩ := p
      rw [hdt] at h
      have := ih _ l h
      simpa [List.append_assoc] using this

/-! ### Facts about the stage fallback -/

theorem selectStage_self {α : Type} (a : List α) : selectStage a a = a := by
  unfold selectStage
  split <;> rfl

theorem selectStage_ne {α : Type} (vs fs : List α) (h : vs ≠ []) :
    selectStage vs fs = vs := by
  have he : vs.isEmpty = false := by simpa using h
  simp [selectStage, he]

/-! ### The claims -/

/-- C4: parseDataType maps each of the eight supported tokens to the
(kind, component-count) pair with kind Float for the float tokens, Int
for the int tokens, and count equal to the numeric suffix (1 when
absent); every other token is an unsupported-type error. -/
theorem C4_parseDataType_table :
    parseDataType "float" = Except.ok (DataType.float, 1) ∧
    parseDataType "float2" = Except.ok (DataType.float, 2) ∧
    parseDataType "float3" = Except.ok (DataType.float, 3) ∧
    parseDataType "float4" = Except.ok (DataType.float, 4) ∧
    parseDataType "int" = Except.ok (DataType.int, 1) ∧
    parseDataType "int2" = Except.ok (DataType.int, 2) ∧
    parseDataType "int3" = Except.ok (DataType.int, 3) ∧
    parseDataType "int4" = Except.ok (DataType.int, 4) ∧
    ∀ t : String, t ≠ "float" → t ≠ "float2" → t ≠ "float3" →
      t ≠ "float4" → t ≠ "int" → t ≠ "int2" → t ≠ "int3" → t ≠ "int4" →
      parseDataType t =
        Except.error ("unsupported input data type: " ++ t) := by
  refine ⟨rfl, rfl, rfl, rfl, rfl, rfl, rfl, rfl, ?_⟩
  intro t h1 h2 h3 h4 h5 h6 h7 h8
  simp [parseDataType, h1, h2, h3, h4, h5, h6, h7, h8]

/-- Witness for C4 at the unsupported token "double". -/
theorem C4_witness :
    parseDataType "double" =
      Except.error ("unsupported input data type: " ++ "double") :=
  C4_parseDataType_table.2.2.2.2.2.2.2.2 "double" (by decide) (by decide)
    (by decide) (by decide) (by decide) (by decide) (by decide) (by decide)

/-- C1: on a fresh record, the parsed uniform locations' offsets are
exactly the spec's flattened layout over the selected stage's blocks —
each member of block k at offset (S1 + ... + S(k-1)) + member.offset,
in source order — and Uniforms.Size is the sum of all block sizes. -/
theorem C1_uniform_offsets_flattened (doc : shaderMetadata)
    (info : ShaderSources)
    (h : parseReflection doc emptyShaderSources = Except.ok info) :
    info.Uniforms.Size =
      ((selectStage doc.VS.UniformBuffers doc.FS.UniformBuffers).map
        (fun b => b.Size)).sum ∧
    info.Uniforms.Locations.map (fun u => u.Offset) =
      specFlattenedOffsets
        (selectStage doc.VS.UniformBuffers doc.FS.UniformBuffers) := by
  obtain ⟨ins0, off, B, L, hpi, hpb, hi⟩ :=
    parseReflection_ok_inv doc emptyShaderSources info h
  obtain ⟨hsz, hoffs⟩ := parseBlocks_ok_spec
    (selectStage doc.VS.UniformBuffers doc.FS.UniformBuffers) 0 off B L hpb
  subst hi
  constructor
  · simpa using hsz
  · simpa using hoffs

/-- Witness for C1 at docW (blocks of sizes 16 and 8): block 2's
member lands at offset 16 and the total size is 24. -/
theorem C1_witness :
    infoW.Uniforms.Size =
      ((selectStage docW.VS.UniformBuffers docW.FS.UniformBuffers).map
        (fun b => b.Size)).sum ∧
    infoW.Uniforms.Locations.map (fun u => u.Offset) =
      specFlattenedOffsets
        (selectStage docW.VS.UniformBuffers docW.FS.UniformBuffers) :=
  C1_uniform_offsets_flattened docW infoW (by rfl)

/-- C3: for a document whose vertex inputs have pairwise distinct
locations, the parsed input sequence is strictly ascending by
location, whatever the document order was. -/
theorem C3_inputs_sorted (doc : shaderMetadata) (info : ShaderSources)
    (hnd : (doc.VS.Inputs.map (fun i => i.Location)).Nodup)
    (h : parseReflection doc emptyShaderSources = Except.ok info) :
    List.Sorted (fun a b : Int => a < b)
      (info.Inputs.map (fun i => i.Location)) := by
  obtain ⟨ins0, off, B, L, hpi, hpb, hi⟩ :=
    parseReflection_ok_inv doc emptyShaderSources info h
  subst hi
  have hloc := parseInputs_ok_locations doc.VS.Inputs _ ins0 hpi
  simp only [emptyShaderSources, List.map_nil, List.nil_append] at hloc
  have hperm : (sortInputs ins0).Perm ins0 :=
    List.perm_insertionSort inputLE ins0
  have hnd2 : ((sortInputs ins0).map (fun i => i.Location)).Nodup := by
    refine (hperm.map (fun i => i.Location)).symm.nodup ?_
    rw [hloc]
    exact hnd
  exact sorted_le_nodup_strict _ (List.sorted_insertionSort inputLE ins0) hnd2

/-- Witness for C3 at docW, whose inputs appear as locations [1, 0]. -/
theorem C3_witness :
    List.Sorted (fun a b : Int => a < b)
      (infoW.Inputs.map (fun i => i.Location)) :=
  C3_inputs_sorted docW infoW (by decide) (by rfl)

/-- C5: with no vertex-stage uniform blocks, parseReflection behaves
exactly as if the fragment stage's blocks were the vertex stage's,
unmodified; with at least one vertex-stage block, the fragment stage's
blocks are ignored entirely; and the same two facts hold independently
for texture bindings. -/
theorem C5_stage_fallback (doc : shaderMetadata) (r : ShaderSources) :
    (doc.VS.UniformBuffers = [] →
      parseReflection doc r =
        parseReflection
          { doc with VS := { doc.VS with
              UniformBuffers := doc.FS.UniformBuffers } } r) ∧
    (doc.VS.UniformBuffers ≠ [] →
      ∀ fsB, parseReflection doc r =
        parseReflection
          { doc with FS := { doc.FS with UniformBuffers := fsB } } r) ∧
    (doc.VS.Textures = [] →
      parseReflection doc r =
        parseReflection
          { doc with VS := { doc.VS with
              Textures := doc.FS.Textures } } r) ∧
    (doc.VS.Textures ≠ [] →
      ∀ fsT, parseReflection doc r =
        parseReflection
          { doc with FS := { doc.FS with Textures := fsT } } r) := by
  refine ⟨?_, ?_, ?_, ?_⟩
  · intro h
    simp [parseReflection, selectStage, h]
  · intro h fsB
    simp [parseReflection, selectStage_ne _ _ h]
  · intro h
    simp [parseReflection, selectStage, h]
  · intro h fsT
    simp [parseReflection, selectStage_ne _ _ h]

/-- Witness for C5 at docW, whose vertex stage declares no textures:
copying the fragment textures into the vertex stage changes nothing. -/
theorem C5_witness :
    parseReflection docW emptyShaderSources =
      parseReflection docWTex emptyShaderSources :=
  (C5_stage_fallback docW emptyShaderSources).2.2.1 (by rfl)

/-- C6: parsing the same document twice (from the same starting
record) yields identical InputLocation, UniformLocation and
TextureBinding sequences: the parser consults nothing but its
arguments. -/
theorem C6_parse_deterministic (doc : shaderMetadata)
    (r i1 i2 : ShaderSources)
    (h1 : parseReflection doc r = Except.ok i1)
    (h2 : parseReflection doc r = Except.ok i2) :
    i1.Inputs = i2.Inputs ∧
    i1.Uniforms.Locations = i2.Uniforms.Locations ∧
    i1.Textures = i2.Textures := by
  rw [h1] at h2
  obtain rfl := Except.ok.inj h2
  exact ⟨rfl, rfl, rfl⟩

/-- Witness for C6 at docW. -/
theorem C6_witness :
    infoW.Inputs = infoW.Inputs ∧
    infoW.Uniforms.Locations = infoW.Uniforms.Locations ∧
    infoW.Textures = infoW.Textures :=
  C6_parse_deterministic docW emptyShaderSources infoW infoW
    (by rfl) (by rfl)

/-- C9: parseReflection appends to the record it is given: previously
present blocks, locations and textures are retained with the fresh
parse's entries appended, the combined inputs are re-sorted (a
permutation of old followed by new, sorted by location), the new
member offsets restart from block offset zero (they are exactly the
fresh parse's), and Uniforms.Size is overwritten with the new
document's total alone; hence parsing the same document twice into the
same record doubles every list. -/
theorem C9_parse_appends (doc : shaderMetadata) (r i : ShaderSources)
    (h : parseReflection doc r = Except.ok i) :
    (∃ i0, parseReflection doc emptyShaderSources = Except.ok i0 ∧
      i.Uniforms.Blocks = r.Uniforms.Blocks ++ i0.Uniforms.Blocks ∧
      i.Uniforms.Locations = r.Uniforms.Locations ++ i0.Uniforms.Locations ∧
      i.Textures = r.Textures ++ i0.Textures ∧
      i.Uniforms.Size = i0.Uniforms.Size ∧
      i.Inputs.Perm (r.Inputs ++ i0.Inputs) ∧
      List.Sorted inputLE i.Inputs) ∧
    (r = emptyShaderSources →
      ∀ i2, parseReflection doc i = Except.ok i2 →
        i2.Inputs.length = 2 * i.Inputs.length ∧
        i2.Uniforms.Blocks.length = 2 * i.Uniforms.Blocks.length ∧
        i2.Uniforms.Locations.length = 2 * i.Uniforms.Locations.length ∧
        i2.Textures.length = 2 * i.Textures.length) := by
  refine ⟨parseReflection_shift doc r i h, ?_⟩
  rintro rfl i2 h2
  obtain ⟨i0, hi0, hB, hL, hT, _, hP, _⟩ := parseReflection_shift doc i i2 h2
  rw [h] at hi0
  obtain rfl := Except.ok.inj hi0
  refine ⟨?_, by simp [hB, two_mul], by simp [hL, two_mul],
    by simp [hT, two_mul]⟩
  have := hP.length_eq
  simp only [List.length_append] at this
  simpa [two_mul] using this

/-- Witness for C9 at docW starting from the fresh record. -/
theorem C9_witness :
    (∃ i0, parseReflection docW emptyShaderSources = Except.ok i0 ∧
      infoW.Uniforms.Blocks =
        emptyShaderSources.Uniforms.Blocks ++ i0.Uniforms.Blocks ∧
      infoW.Uniforms.Locations =
        emptyShaderSources.Uniforms.Locations ++ i0.Uniforms.Locations ∧
      infoW.Textures = emptyShaderSources.Textures ++ i0.Textures ∧
      infoW.Uniforms.Size = i0.Uniforms.Size ∧
      infoW.Inputs.Perm (emptyShaderSources.Inputs ++ i0.Inputs) ∧
      List.Sorted inputLE infoW.Inputs) ∧
    (emptyShaderSources = emptyShaderSources →
      ∀ i2, parseReflection docW infoW = Except.ok i2 →
        i2.Inputs.length = 2 * infoW.Inputs.length ∧
        i2.Uniforms.Blocks.length = 2 * infoW.Uniforms.Blocks.length ∧
        i2.Uniforms.Locations.length =
          2 * infoW.Uniforms.Locations.length ∧
        i2.Textures.length = 2 * infoW.Textures.length) :=
  C9_parse_appends docW emptyShaderSources infoW (by rfl)

/-- C2: after both variants are computed, byte-identical GLSL-ES-100
text yields exactly one emitted record, and differing text yields
exactly the ordered pair, uniform-color variant first. -/
theorem C2_dedup_emission (env : Env) (s : String) (v0 v1 : variantOut)
    (h0 : processVariant env s colorVariantArgs = Except.ok v0)
    (h1 : processVariant env s textureVariantArgs = Except.ok v1) :
    (v0.sources.GLSL100ES = v1.sources.GLSL100ES →
      ∃ v, processShader env s = Except.ok [v]) ∧
    (v0.sources.GLSL100ES ≠ v1.sources.GLSL100ES →
      processShader env s = Except.ok [v0, v1]) := by
  constructor
  · intro he
    exact ⟨v0, by simp [processShader, h0, h1, he]⟩
  · intro hne
    simp [processShader, h0, h1, hne]

/-- Witness for C2: the argument-blind template of envE collapses to
one record; the argument-sensitive template of envW emits the ordered
pair. -/
theorem C2_witness :
    (∃ v, processShader envE "shaders/blit.frag" = Except.ok [v]) ∧
    processShader envW "shaders/blit.frag" = Except.ok [v0W, v1W] :=
  ⟨(C2_dedup_emission envE "shaders/blit.frag" vE vE (by rfl) (by rfl)).1
      rfl,
    (C2_dedup_emission envW "shaders/blit.frag" v0W v1W (by rfl)
      (by rfl)).2 (by decide)⟩

/-- C10: when the two variants' GLSL-ES-100 texts coincide, the single
emitted record is exactly the first variant's — its reflection
metadata, GLSL-ES-300 text, HLSL text and bytecode — and the second
variant's record is discarded entirely. -/
theorem C10_single_record_is_first (env : Env) (s : String)
    (v0 v1 : variantOut)
    (h0 : processVariant env s colorVariantArgs = Except.ok v0)
    (h1 : processVariant env s textureVariantArgs = Except.ok v1)
    (he : v0.sources.GLSL100ES = v1.sources.GLSL100ES) :
    processShader env s = Except.ok [v0] := by
  simp [processShader, h0, h1, he]

/-- Witness for C10 at envE. -/
theorem C10_witness :
    processShader envE "shaders/blit.frag" = Except.ok [vE] :=
  C10_single_record_is_first envE "shaders/blit.frag" vE vE
    (by rfl) (by rfl) rfl

/-! ### Behavior with fxc missing (for C7) -/

theorem processShader_compile_irrel (g : Bool) (sh : List String)
    (t : String → shaderArgs → Except String String)
    (gl : String → String → String → String →
      Except String (String × Except String shaderMetadata))
    (c c0 : String → String → String → Except String (List Nat))
    (s : String) :
    processShader (Env.mk g false sh t gl c) s =
      processShader (Env.mk g false sh t gl c0) s := rfl

theorem generateShaders_compile_irrel (g : Bool) (sh : List String)
    (t : String → shaderArgs → Except String String)
    (gl : String → String → String → String →
      Except String (String × Except String shaderMetadata))
    (c c0 : String → String → String → Except String (List Nat)) :
    ∀ l, generateShaders (Env.mk g false sh t gl c) l =
      generateShaders (Env.mk g false sh t gl c0) l := by
  intro l
  induction l with
  | nil => rfl
  | cons s rest ih =>
    simp only [generateShaders, ih,
      processShader_compile_irrel g sh t gl c c0 s]

theorem processVariant_fxc_none (env : Env) (s : String)
    (a : shaderArgs) (v : variantOut) (h : env.fxcFound = false)
    (hv : processVariant env s a = Except.ok v) :
    v.sources.HLSL = none := by
  simp only [processVariant, h, Bool.false_eq_true, if_false] at hv
  repeat' split at hv
  all_goals try cases hv
  all_goals rfl

theorem processShader_fxc_none (env : Env) (s : String)
    (recs : List variantOut) (h : env.fxcFound = false)
    (hs : processShader env s = Except.ok recs) :
    ∀ v ∈ recs, v.sources.HLSL = none := by
  simp only [processShader] at hs
  cases h0 : processVariant env s colorVariantArgs with
  | error e => simp only [h0] at hs; cases hs
  | ok v0 =>
    simp only [h0] at hs
    cases h1 : processVariant env s textureVariantArgs with
    | error e => simp only [h1] at hs; cases hs
    | ok v1 =>
      simp only [h1] at hs
      have n0 := processVariant_fxc_none env s colorVariantArgs v0 h h0
      have n1 := processVariant_fxc_none env s textureVariantArgs v1 h h1
      by_cases he : v0.sources.GLSL100ES = v1.sources.GLSL100ES
      · rw [if_pos he] at hs
        obtain rfl := Except.ok.inj hs
        intro v hv
        rw [List.mem_singleton] at hv
        subst hv
        exact n0
      · rw [if_neg he] at hs
        obtain rfl := Except.ok.inj hs
        intro v hv
        rcases List.mem_cons.mp hv with rfl | hv2
        · exact n0
        · rw [List.mem_singleton] at hv2
          subst hv2
          exact n1

theorem generateShaders_fxc_none (env : Env) (h : env.fxcFound = false) :
    ∀ (l : List String) (out : List (List variantOut)),
      generateShaders env l = Except.ok out →
      ∀ recs ∈ out, ∀ v ∈ recs, v.sources.HLSL = none := by
  intro l
  induction l with
  | nil =>
    intro out hout recs hrecs v hv
    simp only [generateShaders] at hout
    obtain rfl := Except.ok.inj hout
    simp at hrecs
  | cons s rest ih =>
    intro out hout recs hrecs v hv
    simp only [generateShaders] at hout
    cases h0 : processShader env s with
    | error e => simp only [h0] at hout; cases hout
    | ok recs0 =>
      simp only [h0] at hout
      cases h1 : generateShaders env rest with
      | error e => simp only [h1] at hout; cases hout
      | ok more =>
        simp only [h1] at hout
        obtain rfl := Except.ok.inj hout
        rcases List.mem_cons.mp hrecs with rfl | hmem
        · exact processShader_fxc_none env s recs h h0 v hv
        · exact ih more h1 recs hmem v hv

/-- C7: when the fxc binary is not found, the bytecode compiler is
never consulted (generate's result is independent of the compile
oracle, so the whole pipeline — GLSL-ES-100, GLSL-ES-300 and HLSL
text — proceeds exactly as it would with any bytecode compiler), and
every emitted record's HLSL bytecode field is absent. -/
theorem C7_fxc_missing (env : Env)
    (c : String → String → String → Except String (List Nat))
    (h : env.fxcFound = false) :
    generate { env with compile := c } = generate env ∧
    (∀ out, generate env = Except.ok out →
      ∀ recs ∈ out, ∀ v ∈ recs, v.sources.HLSL = none) := by
  constructor
  · obtain ⟨g, f, sh, t, gl, c0⟩ := env
    dsimp only at h
    subst h
    cases g with
    | false => rfl
    | true => exact generateShaders_compile_irrel true sh t gl c c0 sh
  · intro out hout recs hrecs v hv
    cases hg : env.glslccFound with
    | false =>
      rw [generate, hg] at hout
      simp at hout
    | true =>
      rw [generate, hg] at hout
      simp only [if_true] at hout
      exact generateShaders_fxc_none env h env.shaders out hout recs hrecs
        v hv

/-- Witness for C7: with fxc missing, generate ignores even an
always-failing bytecode oracle, and the emitted records carry no
bytecode. -/
theorem C7_witness :
    generate { envN with compile := czero } = generate envN ∧
    vN0W.sources.HLSL = none :=
  ⟨(C7_fxc_missing envN czero (by rfl)).1,
    (C7_fxc_missing envN czero (by rfl)).2 [[vN0W, vN1W]] (by rfl)
      [vN0W, vN1W] (List.Mem.head _) vN0W (List.Mem.head _)⟩

/-! ### Error propagation (for C8) -/

theorem generateShaders_error (env : Env) (s : String)
    (post : List String) (e : String)
    (hs : processShader env s = Except.error e) :
    ∀ pre, (∀ x ∈ pre, ∃ v, processShader env x = Except.ok v) →
      generateShaders env (pre ++ s :: post) = Except.error e := by
  intro pre
  induction pre with
  | nil =>
    intro _
    simp only [List.nil_append, generateShaders, hs]
  | cons x xs ih =>
    intro hpre
    obtain ⟨v, hv⟩ := hpre x (List.mem_cons_self x xs)
    have htail := ih (fun y hy => hpre y (List.mem_cons_of_mem x hy))
    simp only [List.cons_append, generateShaders, hv, List.append_eq, htail]

/-- C8: a failure while processing any shader (any failing stage of
processShader: template, conversion, reflection decoding, unsupported
type, unrecognized stage, or bytecode compilation) aborts generate
immediately with that very error; since generate only returns the
artifact on Except.ok — the WriteFile call is behind every earlier
return err — no output artifact is produced. -/
theorem C8_error_aborts (env : Env) (pre : List String) (s : String)
    (post : List String) (e : String)
    (hgl : env.glslccFound = true)
    (hsh : env.shaders = pre ++ s :: post)
    (hpre : ∀ x ∈ pre, ∃ v, processShader env x = Except.ok v)
    (hs : processShader env s = Except.error e) :
    generate env = Except.error e := by
  rw [generate, hgl, hsh]
  simp only [if_true]
  exact generateShaders_error env s post e hs pre hpre

/-- Witness for C8: the document with an input of type "double" makes
the run abort with the unsupported-type error. -/
theorem C8_witness :
    generate envBad =
      Except.error "parseReflection: unsupported input data type: double" :=
  C8_error_aborts envBad [] "shaders/blit.frag" [] _ (by rfl) (by rfl)
    (by intro x hx; exact absurd hx (List.not_mem_nil x)) (by rfl)

end ConvertShaders
